import Mathlib

/-!
Verification of the DeepDive AI result-caching and synchronization core.

This file shallowly embeds the state-manipulating parts of the repository:

* the chat send handler and its stream accumulator
  (handleSendMessage in App.tsx),
* the synchronous prefix of the analyze handler (handleAnalyze in App.tsx),
* the analyze-collaborator response parsing (analyzeTradingData in
  services/geminiService.ts),
* the chat-history portion of the SQLite and PostgreSQL store services
  (databaseService.ts, postgresDatabaseService.ts),
* the file portion of the two store services,
* the remote client transport (DatabaseClient.request / DatabaseClient.getFile)
  composed with the server route GET /api/files/:id (server/index.ts),
* the one-time localStorage migration (DatabaseClient.migrateFromLocalStorage).

Pure functions of the source become Lean functions; stateful handlers become
explicit state-passing functions; fallible operations return Except or are
parameterised by an injected failure point.
-/

namespace DeepDive

/-- Message roles, the ChatRole union in types.ts. -/
inductive Role where
  | user
  | model
deriving DecidableEq, Repr

/-- The ChatMessage record in types.ts: one turn of a per-file conversation. -/
structure ChatMessage where
  role : Role
  text : String
deriving DecidableEq, Repr

/-! ## Stream accumulator (handleSendMessage, App.tsx lines 264–305) -/

/-- One display update of the stream accumulator: the functional state update
inside the for-await loop of handleSendMessage. It replaces the text of the
last displayed message with the running buffer `modelResponse`, but only if
the displayed history is nonempty and its last message has role model (the
defensive check of the source). -/
def streamStep (history : List ChatMessage) (modelResponse : String) :
    List ChatMessage :=
  match history.getLast? with
  | some last =>
      if last.role = Role.model then
        history.dropLast ++ [⟨Role.model, modelResponse⟩]
      else
        history
  | none => history

/-- The for-await loop of handleSendMessage: for each fragment, append it to
the running buffer `acc` (the `modelResponse += chunk.text` line), then update
the displayed history via `streamStep`. Returns the final displayed history
together with the final running buffer. -/
def streamLoop (history : List ChatMessage) (acc : String) :
    List String → List ChatMessage × String
  | [] => (history, acc)
  | c :: cs =>
      let acc' := acc ++ c
      streamLoop (streamStep history acc') acc' cs

/-! ## The chat send handler (handleSendMessage, App.tsx lines 242–306) -/

/-- The user-facing error string set by the catch branch of
handleSendMessage. -/
def chatErrorText : String :=
  "An error occurred during chat. Please try again."

/-- Outcome of the external chat collaborator call as observed by
handleSendMessage: the call may throw before any fragment is produced, the
fragment iteration may throw after some fragments were delivered, or the
stream may run to completion. -/
inductive StreamOutcome where
  | failBeforeStream
  | failDuring (delivered : List String)
  | success (frags : List String)
deriving DecidableEq, Repr

/-- The session state touched by handleSendMessage for the current file: the
displayed chat history for that file, the user-facing error, and the
isChatLoading flag. -/
structure ChatState where
  display : List ChatMessage
  errorMsg : Option String
  chatLoading : Bool
deriving DecidableEq, Repr

/-- Result of a handleSendMessage invocation: the final session state and the
history written to the store (or the fallback cache), if any. -/
structure SendOutput where
  state : ChatState
  persisted : Option (List ChatMessage)
deriving DecidableEq, Repr

/-- The handler handleSendMessage from App.tsx. `hasReport` is the guard on
a selected file with a current markdownReport; the second guard returns early
while isChatLoading is true. Otherwise the tentative user message is appended
optimistically, the error is cleared and isChatLoading set; then: on any
failure the catch branch sets the display to the optimistic history
(discarding the model placeholder and any partial model text) and sets the
error; on success the display is whatever the stream fold left, and the
optimistic history plus the completed model message is persisted. The finally
branch clears isChatLoading in every path. -/
def handleSendMessage (hasReport : Bool) (s : ChatState) (message : String)
    (outcome : StreamOutcome) : SendOutput :=
  if !hasReport then ⟨s, none⟩
  else if s.chatLoading then ⟨s, none⟩
  else
    let optimisticHistory := s.display ++ [⟨Role.user, message⟩]
    match outcome with
    | .failBeforeStream =>
        ⟨⟨optimisticHistory, some chatErrorText, false⟩, none⟩
    | .failDuring delivered =>
        -- the seeded fold runs for the delivered fragments, but the catch
        -- branch overwrites the display with the optimistic history
        let _folded :=
          streamLoop (optimisticHistory ++ [⟨Role.model, ""⟩]) "" delivered
        ⟨⟨optimisticHistory, some chatErrorText, false⟩, none⟩
    | .success frags =>
        let seeded := optimisticHistory ++ [⟨Role.model, ""⟩]
        let folded := streamLoop seeded "" frags
        let finalHistory := optimisticHistory ++ [⟨Role.model, folded.2⟩]
        ⟨⟨folded.1, none, false⟩, some finalHistory⟩

/-- The history persisted after a completed stream, exactly as the source
computes it: the optimistic history followed by one model message holding
`modelResponse`, where `modelResponse` is the running buffer of the fragment
loop. The displayed history the loop folded over is passed explicitly,
modelling a display that may have been mutated concurrently (the source reads
it through a functional updater). -/
def persistedOnSuccess (prior : List ChatMessage) (message : String)
    (displayAtStream : List ChatMessage) (frags : List String) :
    List ChatMessage :=
  let optimisticHistory := prior ++ [⟨Role.user, message⟩]
  let modelResponse := (streamLoop displayAtStream "" frags).2
  optimisticHistory ++ [⟨Role.model, modelResponse⟩]

/-! ## The analyze handler (handleAnalyze, App.tsx lines 192–240) -/

/-- The in-memory chatHistory map, fileId to message list (unique keys). -/
abbrev ChatMap := List (String × List ChatMessage)

/-- The JS computed-key object update (spread of prev with key `k` set to
`v`) on a map with unique keys: replace the entry for `k` in place, or append
it. -/
def setEntry : ChatMap → String → List ChatMessage → ChatMap
  | [], k, v => [(k, v)]
  | p :: rest, k, v =>
      if p.1 == k then (k, v) :: rest else p :: setEntry rest k v

/-- The JS read of the chatHistory map at key `k`, with absent keys read as
the empty list. -/
def getEntry : ChatMap → String → List ChatMessage
  | [], _ => []
  | p :: rest, k => if p.1 == k then p.2 else getEntry rest k

/-- Session state touched by the synchronous prefix of handleAnalyze. -/
structure AnalyzeState where
  selectedFile : Option String
  isAnalyzing : Bool
  errorMsg : Option String
  chatHistories : ChatMap
  isDbConnected : Bool
deriving DecidableEq, Repr

/-- Result of the synchronous prefix of handleAnalyze: the session state just
before the collaborator call suspends, whether the analyzeTradingData call
was issued, and whether the best-effort store chat-clear was issued. -/
structure AnalyzeStep where
  state : AnalyzeState
  analyzeCalled : Bool
  storeChatClearIssued : Bool
deriving DecidableEq, Repr

/-- The synchronous prefix of handleAnalyze (App.tsx lines 192–213), up to
and including issuing the analyzeTradingData call: the only guard is the
early return when no file is selected; past it the handler sets isLoading,
clears the error, clears the chat history of the selected file in memory,
issues the best-effort store chat-clear when the store is connected, and
invokes the collaborator. (The cosmetic loadingText rotation is omitted.) -/
def handleAnalyzeStart (s : AnalyzeState) : AnalyzeStep :=
  match s.selectedFile with
  | none => ⟨s, false, false⟩
  | some fid =>
      ⟨{ s with
          isAnalyzing := true
          errorMsg := none
          chatHistories := setEntry s.chatHistories fid [] },
        true, s.isDbConnected⟩

/-! ## Analyze-collaborator response parsing
  (analyzeTradingData, services/geminiService.ts lines 199–258) -/

/-- Untyped JSON values crossing the collaborator boundary. -/
inductive Json where
  | null
  | bool (b : Bool)
  | num (n : Int)
  | str (s : String)
  | arr (elems : List Json)
  | obj (fields : List (String × Json))

/-- JS truthiness of a JSON value (empty string, zero, false and null are
falsy; arrays and objects are always truthy). -/
def jsTruthy : Json → Bool
  | .null => false
  | .bool b => b
  | .num n => n != 0
  | .str s => s != ""
  | .arr _ => true
  | .obj _ => true

/-- Property access on a JSON value: a field of an object, and undefined
(here `none`) on everything else. -/
def Json.getField : Json → String → Option Json
  | .obj fields, k => (fields.find? (fun p => p.1 == k)).map (fun p => p.2)
  | _, _ => none

/-- The JS or-default idiom `x || d`: the value if present and truthy, the
default otherwise. -/
def jsOr (v : Option Json) (dflt : Json) : Json :=
  match v with
  | some j => if jsTruthy j then j else dflt
  | none => dflt

/-- The Array.isArray check applied to a field of a JSON value. -/
def fieldIsArray (j : Json) (k : String) : Bool :=
  match j.getField k with
  | some (.arr _) => true
  | _ => false

/-- The AnalysisResult record built by analyzeTradingData. The source leaves
all three fields untyped at runtime, so they are kept as JSON values here
(chartData is `Json.null` when absent or discarded). -/
structure AnalysisResult where
  markdownReport : Json
  chartData : Json
  suggestedQuestions : Json

/-- The fallback report used when the parsed payload carries no usable
markdownReport field. -/
def reportNotAvailableText : String :=
  "## Report Not Available\n\nThe AI did not return a valid report."

/-- The prefix of the synthesized report built when the raw response fails to
parse as JSON; the raw response text is appended to it. -/
def parseErrorPrefix : String :=
  "## AI Response Error\n\nThe AI returned a response that could not be processed as valid JSON. The raw response is provided below:\n\n---\n\n"

/-- The response-handling tail of analyzeTradingData: `rawText` is the
trimmed response text and `parsed` the outcome of JSON.parse on it (`none`
when JSON.parse throws). On parse failure a placeholder result embedding the
raw text is synthesized; on success the three fields are read with their
or-defaults, and chartData is discarded unless all four series are arrays. -/
def analyzeResponse (rawText : String) (parsed : Option Json) :
    AnalysisResult :=
  match parsed with
  | none =>
      { markdownReport := Json.str (parseErrorPrefix ++ rawText)
        chartData := Json.null
        suggestedQuestions := Json.arr [] }
  | some parsedJson =>
      let markdownReport :=
        jsOr (parsedJson.getField "markdownReport")
          (Json.str reportNotAvailableText)
      let chartData := jsOr (parsedJson.getField "chartData") Json.null
      let suggestedQuestions :=
        jsOr (parsedJson.getField "suggestedQuestions") (Json.arr [])
      if jsTruthy chartData &&
          (!(fieldIsArray chartData "timeOfDay") ||
           !(fieldIsArray chartData "weekday") ||
           !(fieldIsArray chartData "equityCurve") ||
           !(fieldIsArray chartData "instrumentPerformance")) then
        { markdownReport := markdownReport
          chartData := Json.null
          suggestedQuestions := suggestedQuestions }
      else
        { markdownReport := markdownReport
          chartData := chartData
          suggestedQuestions := suggestedQuestions }

/-! ## Chat-history rows in the two store services
  (databaseService.ts lines 192–255, postgresDatabaseService.ts 291–379) -/

/-- One persisted chat_messages row (the columns the services read back). -/
structure Row where
  fileId : String
  role : Role
  text : String
  messageOrder : Nat
deriving DecidableEq, Repr

/-- The chat_messages table, as a bag of rows in insertion order. -/
abbrev Store := List Row

/-- The insert loop of both setChatHistory implementations: message `m` at
list position `j` is inserted with message_order `i + j`. -/
def insertRows (fileId : String) : List ChatMessage → Nat → List Row
  | [], _ => []
  | m :: ms, i => ⟨fileId, m.role, m.text, i⟩ :: insertRows fileId ms (i + 1)

/-- The DELETE statement of both implementations: drop every row of the
given file. -/
def deleteRows (store : Store) (fileId : String) : Store :=
  store.filter (fun r => r.fileId != fileId)

/-- Stable insertion of a row into a list sorted by message_order. -/
def insertSorted (r : Row) : List Row → List Row
  | [] => [r]
  | x :: xs =>
      if r.messageOrder ≤ x.messageOrder then r :: x :: xs
      else x :: insertSorted r xs

/-- Sorting by message_order ascending, the ORDER BY of both getChatHistory
implementations. -/
def sortByOrder : List Row → List Row
  | [] => []
  | r :: rs => insertSorted r (sortByOrder rs)

/-- getChatHistory of both services: select the rows of the file ordered by
message_order ascending and project role and text. -/
def getChatHistory (store : Store) (fileId : String) : List ChatMessage :=
  (sortByOrder (store.filter (fun r => r.fileId == fileId))).map
    (fun r => ⟨r.role, r.text⟩)

namespace DatabaseService

/-- setChatHistory of the SQLite service: delete all rows of the file, then
insert the new messages with message_order 0, 1, …, with no surrounding
transaction. -/
def setChatHistory (store : Store) (fileId : String)
    (msgs : List ChatMessage) : Store :=
  deleteRows store fileId ++ insertRows fileId msgs 0

/-- setChatHistory of the SQLite service with an injected fault: the insert
of message index `failAt` throws. Because there is no transaction, the
delete and the earlier inserts stay committed; the boolean reports whether
the call completed. -/
def setChatHistoryFaulty (store : Store) (fileId : String)
    (msgs : List ChatMessage) (failAt : Option Nat) : Store × Bool :=
  match failAt with
  | none => (setChatHistory store fileId msgs, true)
  | some k =>
      if k < msgs.length then
        (deleteRows store fileId ++ insertRows fileId (msgs.take k) 0, false)
      else (setChatHistory store fileId msgs, true)

end DatabaseService

namespace PostgresDatabaseService

/-- setChatHistory of the PostgreSQL service: the same delete-then-insert
replacement, executed inside a BEGIN/COMMIT transaction. -/
def setChatHistory (store : Store) (fileId : String)
    (msgs : List ChatMessage) : Store :=
  deleteRows store fileId ++ insertRows fileId msgs 0

/-- setChatHistory of the PostgreSQL service with an injected fault at insert
index `failAt`: the catch branch issues ROLLBACK, so on failure the table is
left exactly as it was. -/
def setChatHistoryFaulty (store : Store) (fileId : String)
    (msgs : List ChatMessage) (failAt : Option Nat) : Store × Bool :=
  match failAt with
  | none => (setChatHistory store fileId msgs, true)
  | some k =>
      if k < msgs.length then (store, false)
      else (setChatHistory store fileId msgs, true)

end PostgresDatabaseService

/-! ## File rows in the two store services
  (databaseService.ts lines 71–96, postgresDatabaseService.ts 119–160) -/

/-- The UploadedFile record of types.ts (the `type` field is the MIME
type). -/
structure UploadedFile where
  id : String
  name : String
  type : String
  content : String
  isBinary : Bool
deriving DecidableEq, Repr

/-- One row of the SQLite files table: is_binary is a stored column. -/
structure FileRow where
  id : String
  name : String
  type : String
  content : String
  isBinary : Bool
deriving DecidableEq, Repr

/-- One row of the PostgreSQL files table: the schema has no is_binary
column and insertFile does not store the flag. -/
structure PgFileRow where
  id : String
  name : String
  type : String
  content : String
deriving DecidableEq, Repr

namespace DatabaseService

/-- insertFile of the SQLite service: INSERT of id, name, type, content and
is_binary (1 or 0). -/
def insertFile (rows : List FileRow) (f : UploadedFile) : List FileRow :=
  rows ++ [⟨f.id, f.name, f.type, f.content, f.isBinary⟩]

/-- getFile of the SQLite service: SELECT by id, reading is_binary back as a
boolean; the extra timestamp columns are not modelled. -/
def getFile (rows : List FileRow) (id : String) : Option UploadedFile :=
  (rows.find? (fun r => r.id == id)).map
    (fun r => ⟨r.id, r.name, r.type, r.content, r.isBinary⟩)

end DatabaseService

namespace PostgresDatabaseService

/-- insertFile of the PostgreSQL service: INSERT of id, name, type and
content only; the isBinary flag of the uploaded file is dropped. -/
def insertFile (rows : List PgFileRow) (f : UploadedFile) : List PgFileRow :=
  rows ++ [⟨f.id, f.name, f.type, f.content⟩]

/-- getFile of the PostgreSQL service: SELECT by id; the returned record
hardcodes isBinary to false. -/
def getFile (rows : List PgFileRow) (id : String) : Option UploadedFile :=
  (rows.find? (fun r => r.id == id)).map
    (fun r => ⟨r.id, r.name, r.type, r.content, false⟩)

end PostgresDatabaseService

/-! ## Remote client transport composed with the file route
  (databaseService.ts client lines 317–385, server/index.ts lines 53–64) -/

/-- A server response as the client sees it: the ok flag, the HTTP status,
the error field of the JSON body if any, and the payload when ok. -/
structure EndpointResponse where
  ok : Bool
  status : Nat
  errorField : Option String
  payload : Option UploadedFile
deriving DecidableEq, Repr

namespace Server

/-- The route GET /api/files/:id of server/index.ts: 200 with the file when
present, else 404 with body error field "File not found". -/
def getFileRoute (rows : List FileRow) (id : String) : EndpointResponse :=
  match DatabaseService.getFile rows id with
  | some f => ⟨true, 200, none, some f⟩
  | none => ⟨false, 404, some "File not found", none⟩

end Server

/-- Result of a client call: the value, or the name and message of the
thrown error. -/
inductive ClientResult (α : Type) where
  | success (v : α)
  | failure (errName : String) (message : String)
deriving DecidableEq, Repr

/-- One fetch attempt inside DatabaseClient.request: a non-ok response
parses the body and throws an Error whose message is the body error field
if truthy, else the string "HTTP " followed by the status. -/
def requestAttempt (resp : EndpointResponse) :
    ClientResult (Option UploadedFile) :=
  if resp.ok then .success resp.payload
  else
    let msg :=
      match resp.errorField with
      | some e => if e != "" then e else "HTTP " ++ toString resp.status
      | none => "HTTP " ++ toString resp.status
    .failure "Error" msg

/-- The retry loop of DatabaseClient.request with a deterministic response:
up to `fuel` attempts; a failure on a non-final attempt retries (the backoff
delay is irrelevant to the value); on the final attempt the error is
replaced by the timeout message for an AbortError and by the connection
message otherwise. -/
def requestLoop (resp : EndpointResponse) :
    Nat → ClientResult (Option UploadedFile)
  | 0 => .failure "Error" "Database connection failed after all retries."
  | n + 1 =>
      match requestAttempt resp with
      | .success v => .success v
      | .failure name _ =>
          if n = 0 then
            if name == "AbortError" then
              .failure "Error"
                "Database connection timeout. Please check your connection."
            else
              .failure "Error"
                "Database connection failed. Operating in offline mode."
          else requestLoop resp n

/-- DatabaseClient.request with its default of three attempts. -/
def request (resp : EndpointResponse) : ClientResult (Option UploadedFile) :=
  requestLoop resp 3

/-- Substring occurrence over character lists: the pattern occurs at some
position of the text. -/
def substrAux (pat : List Char) : List Char → Bool
  | [] => pat.isEmpty
  | c :: cs => pat.isPrefixOf (c :: cs) || substrAux pat cs

/-- The JS String.prototype.includes check. -/
def strIncludes (s pat : String) : Bool :=
  substrAux pat.data s.data

namespace DatabaseClient

/-- getFile of the remote client: call request on the file route; a thrown
error is mapped to null only when its message contains "404", and rethrown
otherwise. -/
def getFile (rows : List FileRow) (id : String) :
    ClientResult (Option UploadedFile) :=
  match request (Server.getFileRoute rows id) with
  | .success v => .success v
  | .failure name msg =>
      if strIncludes msg "404" then .success none else .failure name msg

end DatabaseClient

/-! ## One-time migration from the fallback cache
  (DatabaseClient.migrateFromLocalStorage, databaseService.ts client
  lines 471–525) -/

/-- The three fallback-cache keys, with their blobs already deserialized
(they are written by JSON.stringify, so reading them back is modelled as the
stored collections themselves; `none` is an absent key). -/
structure LocalStorageState where
  files : Option (List UploadedFile)
  reports : Option (List (String × Json))
  chats : Option (List (String × List ChatMessage))

/-- The per-item try/catch of the migration loops: a failed store call is
logged and swallowed, never propagated. -/
def tryItem (r : Except String Unit) : Except String Unit :=
  match r with
  | .ok _ => .ok ()
  | .error _ => .ok ()

/-- One migration loop: run the store call for every item, swallowing
per-item failures. -/
def runItems {α : Type} (op : α → Except String Unit) :
    List α → Except String Unit
  | [] => .ok ()
  | x :: xs => do
      let _ ← tryItem (op x)
      runItems op xs

/-- The migration migrateFromLocalStorage: replay the cached files through
uploadFile, the cached analyses through saveAnalysisResult, the cached chat
histories through setChatHistory — each loop tolerating individual item
failures — then remove all three fallback-cache keys. The store calls are
passed in as fallible operations. -/
def migrateFromLocalStorage (ls : LocalStorageState)
    (uploadFile : UploadedFile → Except String Unit)
    (saveAnalysisResult : String × Json → Except String Unit)
    (setChatHistoryRemote : String × List ChatMessage → Except String Unit) :
    Except String LocalStorageState := do
  let _ ← (match ls.files with
    | some fs => runItems uploadFile fs
    | none => Except.ok ())
  let _ ← (match ls.reports with
    | some rs => runItems saveAnalysisResult rs
    | none => Except.ok ())
  let _ ← (match ls.chats with
    | some cs => runItems setChatHistoryRemote cs
    | none => Except.ok ())
  return { files := none, reports := none, chats := none }

/-! ## Helper lemmas -/

/-- Folding string concatenation from an arbitrary seed factors through
String.join. -/
theorem foldl_append_eq_join (c : String) (cs : List String) :
    List.foldl (fun r s => r ++ s) c cs = c ++ String.join cs := by
  induction cs generalizing c with
  | nil => simp [String.join]
  | cons s ss ih =>
      simp only [List.foldl, String.join] at *
      rw [ih (c ++ s), ih ("" ++ s), String.empty_append, String.append_assoc]

/-- Joining a nonempty list splits off its head. -/
theorem join_cons (c : String) (cs : List String) :
    String.join (c :: cs) = c ++ String.join cs := by
  simp only [String.join, List.foldl]
  rw [foldl_append_eq_join, String.empty_append]
  rfl

/-- When the displayed history ends in a model message holding the current
buffer, every step of the loop keeps that shape, and the loop ends with the
buffer extended by the concatenation of all fragments. -/
theorem streamLoop_concat (optimistic : List ChatMessage) (acc : String)
    (cs : List String) :
    streamLoop (optimistic ++ [⟨Role.model, acc⟩]) acc cs
      = (optimistic ++ [⟨Role.model, acc ++ String.join cs⟩],
         acc ++ String.join cs) := by
  induction cs generalizing acc with
  | nil => simp [streamLoop, String.join]
  | cons c cs ih =>
      have hstep : streamStep (optimistic ++ [⟨Role.model, acc⟩]) (acc ++ c)
          = optimistic ++ [⟨Role.model, acc ++ c⟩] := by
        simp [streamStep, List.getLast?_concat, List.dropLast_concat]
      simp only [streamLoop, hstep, ih (acc ++ c), join_cons,
        String.append_assoc]

/-- The running buffer accumulated by the loop does not depend on the
displayed history at all: it is always the initial buffer followed by the
concatenation of the fragments, whatever `history` is. -/
theorem streamLoop_snd (history : List ChatMessage) (acc : String)
    (cs : List String) :
    (streamLoop history acc cs).2 = acc ++ String.join cs := by
  induction cs generalizing history acc with
  | nil => simp [streamLoop, String.join]
  | cons c cs ih =>
      simp only [streamLoop, ih, join_cons, String.append_assoc]

/-- Updating a key of the chat map and reading it back yields the new
value. -/
theorem getEntry_setEntry (m : ChatMap) (k : String) (v : List ChatMessage) :
    getEntry (setEntry m k v) k = v := by
  induction m with
  | nil => simp [setEntry, getEntry]
  | cons p rest ih =>
      by_cases h : p.1 == k
      · simp [setEntry, getEntry, h]
      · simp only [setEntry, getEntry, h, if_neg, Bool.false_eq_true,
          if_false]
        simpa [getEntry, h] using ih

/-- Rows of other files survive the delete, so none of them match the file
being replaced. -/
theorem filter_deleteRows (store : Store) (f : String) :
    (deleteRows store f).filter (fun r => r.fileId == f) = [] := by
  simp only [deleteRows]
  induction store with
  | nil => rfl
  | cons r rs ih =>
      by_cases h : (r.fileId == f) = true
      · simp [List.filter_cons, bne, h, ih]
      · simp [List.filter_cons, bne, h, ih]

/-- Every row produced by the insert loop belongs to the inserted file. -/
theorem filter_insertRows (f : String) (msgs : List ChatMessage) (i : Nat) :
    (insertRows f msgs i).filter (fun r => r.fileId == f)
      = insertRows f msgs i := by
  induction msgs generalizing i with
  | nil => rfl
  | cons m ms ih => simp [insertRows, List.filter_cons, ih]

/-- The insert loop produces rows whose order keys already ascend, so the
ORDER BY sort leaves them untouched. -/
theorem sortByOrder_insertRows (f : String) (msgs : List ChatMessage)
    (i : Nat) :
    sortByOrder (insertRows f msgs i) = insertRows f msgs i := by
  induction msgs generalizing i with
  | nil => rfl
  | cons m ms ih =>
      simp only [insertRows, sortByOrder, ih (i + 1)]
      cases ms with
      | nil => rfl
      | cons m2 ms2 => simp [insertRows, insertSorted, Nat.le_succ]

/-- Projecting role and text back out of the inserted rows recovers the
messages. -/
theorem map_insertRows (f : String) (msgs : List ChatMessage) (i : Nat) :
    (insertRows f msgs i).map (fun r => (⟨r.role, r.text⟩ : ChatMessage))
      = msgs := by
  induction msgs generalizing i with
  | nil => rfl
  | cons m ms ih => simp [insertRows, ih]

/-- A completed delete-then-reinsert replace followed by a read returns
exactly the replacement messages, in order. -/
theorem getChatHistory_replace (store : Store) (f : String)
    (msgs : List ChatMessage) :
    getChatHistory (deleteRows store f ++ insertRows f msgs 0) f = msgs := by
  simp only [getChatHistory, List.filter_append, filter_deleteRows,
    filter_insertRows, List.nil_append, sortByOrder_insertRows,
    map_insertRows]

/-- Every migration loop completes, because each per-item store call is
wrapped in its own try/catch. -/
theorem runItems_ok {α : Type} (op : α → Except String Unit) (l : List α) :
    runItems op l = .ok () := by
  induction l with
  | nil => rfl
  | cons x xs ih =>
      have ht : tryItem (op x) = .ok () := by cases op x <;> rfl
      simp only [runItems, ht, ih]
      rfl

/-! ## Claims -/

/-- C1, counterexample. In a session state with a selected file,
`isAnalyzing = true`, a pending error and a nonempty chat history, invoking
the analyze handler is not a no-op: it issues a second analyze call and
changes the session state (the chat history and the error are cleared). -/
theorem analyze_reentrant_not_noop :
    (handleAnalyzeStart
        ⟨some "f", true, some "E", [("f", [⟨Role.user, "q"⟩])], true⟩
      ).analyzeCalled = true ∧
    (handleAnalyzeStart
        ⟨some "f", true, some "E", [("f", [⟨Role.user, "q"⟩])], true⟩
      ).state
      ≠ ⟨some "f", true, some "E", [("f", [⟨Role.user, "q"⟩])], true⟩ := by
  decide

/-- C1, amended. The analyze handler is a no-op exactly when no file is
selected; whenever a file is selected it proceeds regardless of
`isAnalyzing`: it issues the analyze call, sets `isAnalyzing`, clears the
error, clears the chat history of the selected file, and issues the
best-effort store chat-clear when the store is connected. -/
theorem analyze_guard_selected_only (s : AnalyzeState) :
    (s.selectedFile = none → handleAnalyzeStart s = ⟨s, false, false⟩) ∧
    ∀ fid, s.selectedFile = some fid →
      (handleAnalyzeStart s).analyzeCalled = true ∧
      (handleAnalyzeStart s).state.isAnalyzing = true ∧
      (handleAnalyzeStart s).state.errorMsg = none ∧
      getEntry (handleAnalyzeStart s).state.chatHistories fid = [] ∧
      (handleAnalyzeStart s).storeChatClearIssued = s.isDbConnected := by
  constructor
  · intro h
    simp [handleAnalyzeStart, h]
  · intro fid h
    simp [handleAnalyzeStart, h, getEntry_setEntry]

/-- C1, witness for the amended theorem at a concrete re-entrant state. -/
theorem analyze_guard_selected_only_witness :
    (handleAnalyzeStart
        ⟨some "f", true, some "E", [("f", [⟨Role.user, "q"⟩])], true⟩
      ).analyzeCalled = true ∧
    getEntry
      (handleAnalyzeStart
          ⟨some "f", true, some "E", [("f", [⟨Role.user, "q"⟩])], true⟩
        ).state.chatHistories "f" = [] := by
  have h := (analyze_guard_selected_only
    ⟨some "f", true, some "E", [("f", [⟨Role.user, "q"⟩])], true⟩).2 "f" rfl
  exact ⟨h.1, h.2.2.2.1⟩

/-- C2, counterexample. A failing chat send from an empty prior history does
not revert the display to the pre-optimistic state (the empty list): the
tentative user message is retained. -/
theorem chat_error_revert_counterexample :
    (handleSendMessage true ⟨[], none, false⟩ "hi"
        StreamOutcome.failBeforeStream).state.display ≠ [] := by
  decide

/-- C2, amended. On a chat failure before or during streaming, the display
is set to the optimistic history — the prior history plus the tentative user
message (the model placeholder and any partial model text are dropped, but
the user message is retained) — a user-facing error is set, nothing is
persisted, and the loading flag is cleared. -/
theorem chat_error_reverts_to_optimistic (prior : List ChatMessage)
    (e : Option String) (message : String) (delivered : List String) :
    handleSendMessage true ⟨prior, e, false⟩ message
        StreamOutcome.failBeforeStream
      = ⟨⟨prior ++ [⟨Role.user, message⟩], some chatErrorText, false⟩,
          none⟩ ∧
    handleSendMessage true ⟨prior, e, false⟩ message
        (StreamOutcome.failDuring delivered)
      = ⟨⟨prior ++ [⟨Role.user, message⟩], some chatErrorText, false⟩,
          none⟩ :=
  ⟨rfl, rfl⟩

/-- C3. The analyze response handling never throws: on a JSON parse failure
it synthesizes a result whose report is the explanatory text with the raw
response embedded, with null chartData and no suggested questions; and when
parsing succeeds but some of the four chart series is not an array, the
parsed report and suggested questions are kept while chartData is nulled. -/
theorem analyze_malformed_payload_policy (rawText : String) (j : Json)
    (r : String) (qs : List Json) (cd : Json)
    (hr : j.getField "markdownReport" = some (Json.str r))
    (hr0 : r ≠ "")
    (hq : j.getField "suggestedQuestions" = some (Json.arr qs))
    (hcd : j.getField "chartData" = some cd)
    (hcdT : jsTruthy cd = true)
    (hbad : fieldIsArray cd "timeOfDay" = false ∨
            fieldIsArray cd "weekday" = false ∨
            fieldIsArray cd "equityCurve" = false ∨
            fieldIsArray cd "instrumentPerformance" = false) :
    ((analyzeResponse rawText none).markdownReport
        = Json.str (parseErrorPrefix ++ rawText) ∧
      (analyzeResponse rawText none).chartData = Json.null ∧
      (analyzeResponse rawText none).suggestedQuestions = Json.arr []) ∧
    ((analyzeResponse rawText (some j)).markdownReport = Json.str r ∧
      (analyzeResponse rawText (some j)).suggestedQuestions = Json.arr qs ∧
      (analyzeResponse rawText (some j)).chartData = Json.null) := by
  refine ⟨⟨rfl, rfl, rfl⟩, ?_⟩
  have hrT : jsTruthy (Json.str r) = true := by
    simp only [jsTruthy, bne_iff_ne]
    exact hr0
  have hmr : jsOr (some (Json.str r)) (Json.str reportNotAvailableText)
      = Json.str r := by
    simp [jsOr, hrT]
  have hsq : jsOr (some (Json.arr qs)) (Json.arr []) = Json.arr qs := by
    simp [jsOr, jsTruthy]
  have hcd2 : jsOr (some cd) Json.null = cd := by
    simp [jsOr, hcdT]
  have hcond : (jsTruthy cd &&
      (!(fieldIsArray cd "timeOfDay") ||
       !(fieldIsArray cd "weekday") ||
       !(fieldIsArray cd "equityCurve") ||
       !(fieldIsArray cd "instrumentPerformance"))) = true := by
    rcases hbad with h | h | h | h <;> simp [hcdT, h]
  simp only [analyzeResponse, hr, hq, hcd, hmr, hsq, hcd2]
  simp [hcond]

/-- C3, witness at a concrete parsed payload whose timeOfDay series is a
string instead of an array. -/
theorem analyze_malformed_payload_policy_witness :
    (analyzeResponse "oops"
        (some (Json.obj
          [("markdownReport", Json.str "R"),
           ("suggestedQuestions", Json.arr []),
           ("chartData", Json.obj [("timeOfDay", Json.str "x")])]))
      ).markdownReport = Json.str "R" ∧
    (analyzeResponse "oops"
        (some (Json.obj
          [("markdownReport", Json.str "R"),
           ("suggestedQuestions", Json.arr []),
           ("chartData", Json.obj [("timeOfDay", Json.str "x")])]))
      ).chartData = Json.null := by
  have h := analyze_malformed_payload_policy "oops"
    (Json.obj
      [("markdownReport", Json.str "R"),
       ("suggestedQuestions", Json.arr []),
       ("chartData", Json.obj [("timeOfDay", Json.str "x")])])
    "R" [] (Json.obj [("timeOfDay", Json.str "x")])
    rfl (by decide) rfl rfl rfl (Or.inl rfl)
  exact ⟨h.2.1, h.2.2.2⟩

/-- C4. Seeded with an empty model placeholder appended after the optimistic
history, the stream fold leaves, after the first k fragments, the last
message holding exactly the concatenation of those k fragments in arrival
order; after all fragments it holds the full concatenation, and on the
example fragments the final text is "Hello, world". -/
theorem stream_fold_prefix_concat (optimistic : List ChatMessage)
    (frags : List String) (k : Nat) :
    (streamLoop (optimistic ++ [⟨Role.model, ""⟩]) "" (frags.take k)).1
      = optimistic ++ [⟨Role.model, String.join (frags.take k)⟩] ∧
    (streamLoop (optimistic ++ [⟨Role.model, ""⟩]) "" frags).1
      = optimistic ++ [⟨Role.model, String.join frags⟩] ∧
    (streamLoop [⟨Role.model, ""⟩] "" ["Hel", "lo, ", "world"]).1
      = [⟨Role.model, "Hello, world"⟩] := by
  refine ⟨?_, ?_, ?_⟩
  · rw [streamLoop_concat]
    simp [String.empty_append]
  · rw [streamLoop_concat]
    simp [String.empty_append]
  · rfl

/-- C5, counterexample. In the SQLite implementation a replace whose second
insert fails leaves the store holding neither the pre-replace history nor
the replacement: the old history is gone and only a prefix of the new
messages is present. -/
theorem replace_not_atomic_sqlite_counterexample :
    (DatabaseService.setChatHistoryFaulty [⟨"f", Role.user, "old", 0⟩] "f"
        [⟨Role.user, "a"⟩, ⟨Role.model, "b"⟩] (some 1)).2 = false ∧
    getChatHistory
        (DatabaseService.setChatHistoryFaulty [⟨"f", Role.user, "old", 0⟩]
          "f" [⟨Role.user, "a"⟩, ⟨Role.model, "b"⟩] (some 1)).1 "f"
      ≠ [⟨Role.user, "old"⟩] ∧
    getChatHistory
        (DatabaseService.setChatHistoryFaulty [⟨"f", Role.user, "old", 0⟩]
          "f" [⟨Role.user, "a"⟩, ⟨Role.model, "b"⟩] (some 1)).1 "f"
      ≠ [⟨Role.user, "a"⟩, ⟨Role.model, "b"⟩] := by
  decide

/-- C5, amended. Atomicity of the replace holds in the PostgreSQL
implementation (its transaction rolls back, leaving the store unchanged on
failure), and on success both implementations leave exactly the replacement
messages; the SQLite implementation, however, runs delete-then-insert with
no transaction, so a failure at insert index k leaves the prior history
deleted and exactly the first k replacement messages stored. -/
theorem replaceChatHistory_atomicity (store : Store) (f : String)
    (msgs : List ChatMessage) (k : Nat) (hk : k < msgs.length) :
    PostgresDatabaseService.setChatHistoryFaulty store f msgs (some k)
      = (store, false) ∧
    getChatHistory
        (DatabaseService.setChatHistoryFaulty store f msgs (some k)).1 f
      = msgs.take k ∧
    getChatHistory (PostgresDatabaseService.setChatHistory store f msgs) f
      = msgs := by
  refine ⟨?_, ?_, ?_⟩
  · simp [PostgresDatabaseService.setChatHistoryFaulty, hk]
  · have h1 : (DatabaseService.setChatHistoryFaulty store f msgs (some k)).1
        = deleteRows store f ++ insertRows f (msgs.take k) 0 := by
      simp [DatabaseService.setChatHistoryFaulty, hk]
    rw [h1, getChatHistory_replace]
  · exact getChatHistory_replace store f msgs

/-- C5, witness for the amended theorem at a concrete two-message replace
failing on its second insert. -/
theorem replaceChatHistory_atomicity_witness :
    PostgresDatabaseService.setChatHistoryFaulty [⟨"f", Role.user, "old", 0⟩]
        "f" [⟨Role.user, "a"⟩, ⟨Role.model, "b"⟩] (some 1)
      = ([⟨"f", Role.user, "old", 0⟩], false) ∧
    getChatHistory
        (DatabaseService.setChatHistoryFaulty [⟨"f", Role.user, "old", 0⟩]
          "f" [⟨Role.user, "a"⟩, ⟨Role.model, "b"⟩] (some 1)).1 "f"
      = [⟨Role.user, "a"⟩] := by
  have h := replaceChatHistory_atomicity [⟨"f", Role.user, "old", 0⟩] "f"
    [⟨Role.user, "a"⟩, ⟨Role.model, "b"⟩] 1 (by decide)
  exact ⟨h.1, by simpa using h.2.1⟩

/-- C6, counterexample. For a binary file, putFile followed by getFile
returns the file unchanged under the SQLite service but returns it with
isBinary = false under the PostgreSQL service, which stores no is_binary
column. -/
theorem getFile_isBinary_counterexample :
    DatabaseService.getFile
        (DatabaseService.insertFile [] ⟨"a-1", "a.pdf", "pdf", "x", true⟩)
        "a-1"
      = some ⟨"a-1", "a.pdf", "pdf", "x", true⟩ ∧
    PostgresDatabaseService.getFile
        (PostgresDatabaseService.insertFile []
          ⟨"a-1", "a.pdf", "pdf", "x", true⟩) "a-1"
      ≠ some ⟨"a-1", "a.pdf", "pdf", "x", true⟩ := by
  decide

/-- C6, amended. For a fresh id, putFile followed by getFile agrees between
the two services on id, name, MIME type and content; the isBinary flag is
preserved by the SQLite service but always reported false by the PostgreSQL
service, so the flag agrees only for non-binary files. -/
theorem insertFile_getFile_equiv (f : UploadedFile) (rows : List FileRow)
    (rowsPg : List PgFileRow)
    (h1 : ∀ r ∈ rows, (r.id == f.id) = false)
    (h2 : ∀ r ∈ rowsPg, (r.id == f.id) = false) :
    DatabaseService.getFile (DatabaseService.insertFile rows f) f.id
      = some f ∧
    PostgresDatabaseService.getFile
        (PostgresDatabaseService.insertFile rowsPg f) f.id
      = some { f with isBinary := false } := by
  constructor
  · have hnone : rows.find? (fun r => r.id == f.id) = none := by
      rw [List.find?_eq_none]
      intro x hx
      simp [h1 x hx]
    simp [DatabaseService.getFile, DatabaseService.insertFile,
      List.find?_append, hnone, List.find?_cons]
  · have hnone : rowsPg.find? (fun r => r.id == f.id) = none := by
      rw [List.find?_eq_none]
      intro x hx
      simp [h2 x hx]
    simp [PostgresDatabaseService.getFile, PostgresDatabaseService.insertFile,
      List.find?_append, hnone, List.find?_cons]

/-- C6, witness for the amended theorem at a concrete binary file over empty
stores. -/
theorem insertFile_getFile_equiv_witness :
    DatabaseService.getFile
        (DatabaseService.insertFile [] ⟨"b-1", "b.pdf", "pdf", "y", true⟩)
        "b-1"
      = some ⟨"b-1", "b.pdf", "pdf", "y", true⟩ ∧
    PostgresDatabaseService.getFile
        (PostgresDatabaseService.insertFile []
          ⟨"b-1", "b.pdf", "pdf", "y", true⟩) "b-1"
      = some ⟨"b-1", "b.pdf", "pdf", "y", false⟩ := by
  have h := insertFile_getFile_equiv ⟨"b-1", "b.pdf", "pdf", "y", true⟩ [] []
    (by intro r hr; cases hr) (by intro r hr; cases hr)
  exact ⟨h.1, h.2⟩

/-- C7. Requesting an absent file through the remote client does not return
null: the server answers 404 with body error "File not found", the retry
wrapper rewrites the final error to the connection-failure message, the
404-to-null branch never matches, and the call fails. -/
theorem clientGetFile_absent_fails :
    DatabaseClient.getFile [] "missing"
      = ClientResult.failure "Error"
          "Database connection failed. Operating in offline mode." := by
  rfl

/-- C8. After a completed replace of the chat history of a file, reading
that history back returns exactly the replacement messages in order,
recovered through the persisted integer order key after the
delete-then-reinsert. -/
theorem setChatHistory_getChatHistory_roundtrip (store : Store) (f : String)
    (msgs : List ChatMessage) :
    getChatHistory (DatabaseService.setChatHistory store f msgs) f
      = msgs := by
  simpa [DatabaseService.setChatHistory] using
    getChatHistory_replace store f msgs

/-- C9. On stream completion the persisted history is the optimistic
snapshot (prior history plus the user message) followed by exactly one model
message holding the concatenation of all fragments — independent of the
displayed history the loop folded over, and as realized by the send
handler. -/
theorem persisted_history_on_success (prior : List ChatMessage)
    (e : Option String) (message : String) (d0 : List ChatMessage)
    (frags : List String) :
    persistedOnSuccess prior message d0 frags
      = (prior ++ [⟨Role.user, message⟩])
          ++ [⟨Role.model, String.join frags⟩] ∧
    (handleSendMessage true ⟨prior, e, false⟩ message
        (StreamOutcome.success frags)).persisted
      = some ((prior ++ [⟨Role.user, message⟩])
          ++ [⟨Role.model, String.join frags⟩]) := by
  constructor
  · simp [persistedOnSuccess, streamLoop_snd, String.empty_append]
  · simp [handleSendMessage, streamLoop_snd, String.empty_append]

/-- C10. Whenever the one-time migration runs, it runs to completion — the
per-item try/catch keeps any store-call failure from aborting the batch —
and it ends by removing all three fallback-cache keys unconditionally, for
every cache content and every pattern of store-call failures (including all
of them failing). -/
theorem migration_clears_fallback_cache (ls : LocalStorageState)
    (uploadFile : UploadedFile → Except String Unit)
    (saveAnalysisResult : String × Json → Except String Unit)
    (setChatHistoryRemote : String × List ChatMessage → Except String Unit) :
    migrateFromLocalStorage ls uploadFile saveAnalysisResult
        setChatHistoryRemote
      = .ok { files := none, reports := none, chats := none } := by
  obtain ⟨files, reports, chats⟩ := ls
  cases files <;> cases reports <;> cases chats <;>
    simp only [migrateFromLocalStorage, runItems_ok] <;> rfl

end DeepDive
